import Mathlib

/-!
Shallow embedding of the adaptive audio playback pipeline
(`app/src/audio_player.c`): the sample ring buffer, the moving average of
the buffering level, the SDL pull callback and the frame-sink push with its
clock-drift compensation, together with theorems about the claims of the
specification.

The bodies of `sc_audiobuf_*` and `sc_average_*` are not part of the given
sources (only their callers in `audio_player.c` are), so those two
components are modelled from the specification (sections 4.1 and 4.2).
Everything else is translated directly from `audio_player.c`.
-/

namespace AudioPipeline

/-- Modelled from the spec (section 4.1): the SampleRing (`sc_audiobuf`),
whose implementation is not under `src/`. The ring is represented by the
list of currently readable samples (oldest first); `capacity` bounds its
length, and `sample_size` is the size of one sample in bytes. -/
structure SCAudioBuf where
  sample_size : Nat
  capacity : Nat
  data : List Int
deriving Repr, DecidableEq

/-- Modelled from the spec: `sc_audiobuf_can_read` (samples currently readable). -/
def sc_audiobuf_can_read (b : SCAudioBuf) : Nat :=
  b.data.length

/-- Modelled from the spec: `sc_audiobuf_can_write` (samples currently writable);
the spec invariant is can_read + can_write = capacity. -/
def sc_audiobuf_can_write (b : SCAudioBuf) : Nat :=
  b.capacity - b.data.length

/-- Modelled from the spec: `sc_audiobuf_capacity`. -/
def sc_audiobuf_capacity (b : SCAudioBuf) : Nat :=
  b.capacity

/-- Modelled from the spec: `sc_audiobuf_skip` drops the oldest `n` readable
samples (consumer-side discard used for overflow). -/
def sc_audiobuf_skip (b : SCAudioBuf) (n : Nat) : SCAudioBuf :=
  { b with data := b.data.drop n }

/-- Modelled from the spec: `sc_audiobuf_write` appends `src` to the readable
region (equivalent to prepare + commit; the lock-free prepare/commit split
has the same net effect in this sequential embedding). -/
def sc_audiobuf_write (b : SCAudioBuf) (src : List Int) : SCAudioBuf :=
  { b with data := b.data ++ src }

/-- Modelled from the spec: `sc_audiobuf_read` copies and consumes `n`
samples; returns the samples read and the new ring state. -/
def sc_audiobuf_read (b : SCAudioBuf) (n : Nat) : List Int × SCAudioBuf :=
  (b.data.take n, { b with data := b.data.drop n })

/-- Modelled from the spec: `sc_audiobuf_to_samples` (`TO_SAMPLES`), bytes to
sample count. -/
def sc_audiobuf_to_samples (b : SCAudioBuf) (bytes : Nat) : Nat :=
  bytes / b.sample_size

/-- Modelled from the spec: `sc_audiobuf_to_bytes` (`TO_BYTES`). -/
def sc_audiobuf_to_bytes (b : SCAudioBuf) (samples : Nat) : Nat :=
  samples * b.sample_size

/-- Modelled from the spec (section 4.2): the MovingAverage (`sc_average`),
whose implementation is not under `src/`. `range` is the window size W,
`avg` the running mean (a directly adjustable field), `count` the number of
observations seen so far, saturating at `range`. The C `float` field is
idealized as an exact rational. -/
structure SCAverage where
  range : Nat
  avg : ℚ
  count : Nat
deriving Repr, DecidableEq

/-- Modelled from the spec: `sc_average_push` feeds the next observation into
the window, updating the running mean over the last `range` observations. -/
def sc_average_push (a : SCAverage) (value : ℚ) : SCAverage :=
  let count := min (a.count + 1) a.range
  { a with
    count := count
    avg := (((count : ℚ) - 1) * a.avg + value) / (count : ℚ) }

/-- Modelled from the spec: `sc_average_get`, the read accessor of the mean. -/
def sc_average_get (a : SCAverage) : ℚ :=
  a.avg

/-- C truncation of a (real-valued) quantity when assigned to `int`:
round toward zero. Used for `int diff = ap->target_buffering - avg` in
`audio_player.c`. -/
def cFloatToInt (q : ℚ) : Int :=
  Int.tdiv q.num (q.den : Int)

/-- The C `CLAMP(x, lo, hi)` macro. -/
def clampInt (x lo hi : Int) : Int :=
  max lo (min x hi)

/-- `SC_AUDIO_OUTPUT_BUFFER_MS` from `audio_player.c`. -/
def SC_AUDIO_OUTPUT_BUFFER_MS : Nat := 5

/-- The state of `struct sc_audio_player` relevant to push/pull: everything
except the external device and resampler handles and the scratch pointer
itself (only the scratch capacity `swr_buf_alloc_size` is kept). -/
structure AudioPlayer where
  sample_rate : Nat
  target_buffering : Nat
  buf : SCAudioBuf
  avg_buffering : SCAverage
  previous_can_write : Nat
  received : Bool
  played : Bool
  samples_since_resync : Nat
  swr_buf_alloc_size : Nat
deriving Repr, DecidableEq

/-- Well-formedness of the player state: the ring holds at most `capacity`
samples, and the producer snapshot `previous_can_write` is a lower bound of
the current writable space (the single-producer invariant that justifies the
lock-free fast path). -/
abbrev PlayerWF (ap : AudioPlayer) : Prop :=
  ap.buf.data.length ≤ ap.buf.capacity ∧
  ap.previous_can_write ≤ sc_audiobuf_can_write ap.buf

/-- `sc_audio_player_sdl_callback` from `audio_player.c` (lines 21-75), at
sample granularity: given the requested byte count `len`, computes
`count = TO_SAMPLES(len)` and returns the new player state together with the
list of samples written to `stream` (0 is a silent sample). -/
def sc_audio_player_sdl_callback (ap : AudioPlayer) (len : Nat) :
    AudioPlayer × List Int :=
  let count := sc_audiobuf_to_samples ap.buf len
  let buffered_samples := sc_audiobuf_can_read ap.buf
  if ap.played = false ∧
      buffered_samples + 30 * ap.sample_rate / 1000 < ap.target_buffering then
    -- initial buffering: fill the whole buffer with silence and return
    (ap, List.replicate count 0)
  else
    let read := min buffered_samples count
    let p := sc_audiobuf_read ap.buf read
    let silence := count - read
    let avg1 :=
      if read < count ∧ ap.received = true then
        { ap.avg_buffering with avg := ap.avg_buffering.avg + (silence : ℚ) }
      else ap.avg_buffering
    ({ ap with buf := p.2, avg_buffering := avg1, played := true },
     p.1 ++ List.replicate silence 0)

/-- `sc_audio_player_get_swr_buf` from `audio_player.c` (lines 77-93).
`alloc_ok` stands for the success of `realloc`; on failure the player state
is unchanged and `none` is returned. -/
def sc_audio_player_get_swr_buf (ap : AudioPlayer) (min_samples : Nat)
    (alloc_ok : Bool) : Option AudioPlayer :=
  let min_buf_size := sc_audiobuf_to_bytes ap.buf min_samples
  if min_buf_size > ap.swr_buf_alloc_size then
    if alloc_ok then
      some { ap with swr_buf_alloc_size := min_buf_size + 4096 }
    else none
  else some ap

/-- The slow write path of `sc_audio_player_frame_sink_push` (the `else`
branch of `lockless_write`, lines 140-176 of `audio_player.c`): clamp a
frame larger than the whole ring, skip old samples on overflow (adjusting
`avg` when `played`), then write. Returns the new ring, the new `avg`
value, the updated local `buffered_samples` and the (possibly clamped)
`samples_written`. -/
def sc_audio_player_slow_write (buf : SCAudioBuf) (avg : ℚ) (played : Bool)
    (buffered_samples : Nat) (swr_data : List Int) (samples_written : Nat) :
    SCAudioBuf × ℚ × Nat × Nat :=
  let can_write := sc_audiobuf_can_write buf
  if samples_written > can_write then
    let cap := sc_audiobuf_capacity buf
    let pair :=
      if samples_written > cap then
        -- ignore the first bytes in swr_buf, clamp samples_written to cap
        (swr_data.drop (samples_written - cap), cap)
      else (swr_data, samples_written)
    let triple :=
      if pair.2 > can_write then
        let skip_samples := pair.2 - can_write
        (sc_audiobuf_skip buf skip_samples,
         if played = true then avg - (skip_samples : ℚ) else avg,
         buffered_samples - skip_samples)
      else (buf, avg, buffered_samples)
    (sc_audiobuf_write triple.1 pair.1, triple.2.1, triple.2.2, pair.2)
  else
    (sc_audiobuf_write buf swr_data, avg, buffered_samples, samples_written)

/-- The section of `sc_audio_player_frame_sink_push` executed between
`SDL_LockAudioDevice` and `SDL_UnlockAudioDevice` (lines 129-227 of
`audio_player.c`, including the `lockless_write` decision made just before
the lock). Returns the new player state, the final value of the local
`buffered_samples` and the final (possibly clamped) `samples_written`. -/
def sc_audio_player_push_locked (ap : AudioPlayer) (frame_nb_samples : Nat)
    (swr_data : List Int) (samples_written : Nat) :
    AudioPlayer × Nat × Nat :=
  let lockless_write := samples_written ≤ ap.previous_can_write
  let buffered_samples := sc_audiobuf_can_read ap.buf
  let r :=
    if lockless_write then
      (sc_audiobuf_write ap.buf swr_data, ap.avg_buffering.avg,
       buffered_samples, samples_written)
    else
      sc_audio_player_slow_write ap.buf ap.avg_buffering.avg ap.played
        buffered_samples swr_data samples_written
  let buf1 := r.1
  let avg1 := r.2.1
  let written1 := r.2.2.2
  let buffered2 := r.2.2.1 + written1
  if ap.played = true then
    let max_buffered_samples := ap.target_buffering
        + 12 * SC_AUDIO_OUTPUT_BUFFER_MS * ap.sample_rate / 1000
        + ap.target_buffering / 10
    let buf2 :=
      if buffered2 > max_buffered_samples then
        sc_audiobuf_skip buf1 (buffered2 - max_buffered_samples)
      else buf1
    -- the compensation applies instantly, then the level is smoothed
    let instant_compensation : Int :=
      (written1 : Int) - (frame_nb_samples : Int)
    let avgst := sc_average_push
        { ap.avg_buffering with avg := avg1 + (instant_compensation : ℚ) }
        (buffered2 : ℚ)
    ({ ap with
        buf := buf2,
        avg_buffering := avgst,
        previous_can_write := sc_audiobuf_can_write buf2,
        received := true },
     buffered2, written1)
  else
    let max_initial_buffering := ap.target_buffering
        + 2 * SC_AUDIO_OUTPUT_BUFFER_MS * ap.sample_rate / 1000
    let buf2 :=
      if buffered2 > max_initial_buffering then
        sc_audiobuf_skip buf1 (buffered2 - max_initial_buffering)
      else buf1
    ({ ap with
        buf := buf2,
        avg_buffering := { ap.avg_buffering with avg := avg1 },
        previous_can_write := sc_audiobuf_can_write buf2,
        received := true },
     buffered2, written1)

/-- The once-per-second compensation recompute of
`sc_audio_player_frame_sink_push` (lines 235-251 of `audio_player.c`):
`diff = target_buffering - avg` (C truncation to `int`), zeroed when
negative while the instantaneous buffering is below the target, then
clamped to plus or minus `distance / 50` with `distance = 4 * sample_rate`.
Returns the `(diff, distance)` pair handed to `swr_set_compensation`. -/
def sc_audio_player_recompute (target_buffering sample_rate : Nat) (avg : ℚ)
    (buffered_samples : Nat) : Int × Int :=
  let diff0 : Int := cFloatToInt ((target_buffering : ℚ) - avg)
  let diff1 : Int :=
    if diff0 < 0 ∧ buffered_samples < target_buffering then 0 else diff0
  let distance : Int := 4 * (sample_rate : Int)
  let abs_max_diff := distance / 50
  (clampInt diff1 (-abs_max_diff) abs_max_diff, distance)

/-- The tail of `sc_audio_player_frame_sink_push` executed after
`SDL_UnlockAudioDevice` (lines 229-257): accumulate `samples_since_resync`
and recompute the compensation every second. `played` is the snapshot read
under the lock. Returns the final state and the compensation pair handed to
the resampler, if any. -/
def sc_audio_player_push_resync (played : Bool) (ap2 : AudioPlayer)
    (buffered_samples written1 : Nat) : AudioPlayer × Option (Int × Int) :=
  if played = true then
    let ssr := ap2.samples_since_resync + written1
    if ap2.sample_rate ≤ ssr then
      ({ ap2 with samples_since_resync := 0 },
       some (sc_audio_player_recompute ap2.target_buffering ap2.sample_rate
         (sc_average_get ap2.avg_buffering) buffered_samples))
    else
      ({ ap2 with samples_since_resync := ssr }, none)
  else (ap2, none)

/-- The outcome of one push: `ok` is the C return value, `ap` the final
player state, `buffered` and `written` the final values of the local
variables `buffered_samples` and `samples_written`, and `comp` the
`(diff, distance)` pair handed to `swr_set_compensation` (if the recompute
was triggered). -/
structure PushResult where
  ok : Bool
  ap : AudioPlayer
  buffered : Nat
  written : Nat
  comp : Option (Int × Int)
deriving Repr, DecidableEq

/-- The remainder of `sc_audio_player_frame_sink_push` once the conversion
has succeeded (lines 119-259 of `audio_player.c`): `samples_written` is
already clamped to the scratch capacity, `swr_out` is the scratch content.
Composes the locked section and the post-unlock resync. -/
def sc_audio_player_push_converted (ap : AudioPlayer) (frame_nb_samples : Nat)
    (samples_written : Nat) (swr_out : List Int) : PushResult :=
  let swr_data := swr_out.take samples_written
  let lk := sc_audio_player_push_locked ap frame_nb_samples swr_data
    samples_written
  let fin := sc_audio_player_push_resync ap.played lk.1 lk.2.1 lk.2.2
  ⟨true, fin.1, lk.2.1, lk.2.2, fin.2⟩

/-- `sc_audio_player_frame_sink_push` from `audio_player.c` (lines 95-260).
The external resampler is an oracle: `swr_delay` is what `swr_get_delay`
reports, `alloc_ok` the success of the scratch-buffer `realloc`,
`convert_ret` the return value of `swr_convert` and `swr_out` the contents
of the scratch buffer after conversion. -/
def sc_audio_player_frame_sink_push (ap0 : AudioPlayer)
    (frame_nb_samples swr_delay : Nat) (alloc_ok : Bool) (convert_ret : Int)
    (swr_out : List Int) : PushResult :=
  let dst_nb_samples := swr_delay + frame_nb_samples + 256
  match sc_audio_player_get_swr_buf ap0 dst_nb_samples alloc_ok with
  | none => ⟨false, ap0, 0, 0, none⟩
  | some ap =>
    if convert_ret < 0 then ⟨false, ap, 0, 0, none⟩
    else
      sc_audio_player_push_converted ap frame_nb_samples
        (min convert_ret.toNat dst_nb_samples) swr_out

/-! ## Helper lemmas -/

theorem get_swr_buf_some_proj (ap : AudioPlayer) (n : Nat) (ok : Bool)
    (ap' : AudioPlayer) (h : sc_audio_player_get_swr_buf ap n ok = some ap') :
    ap'.sample_rate = ap.sample_rate ∧
    ap'.target_buffering = ap.target_buffering ∧
    ap'.buf = ap.buf ∧
    ap'.avg_buffering = ap.avg_buffering ∧
    ap'.previous_can_write = ap.previous_can_write ∧
    ap'.received = ap.received ∧
    ap'.played = ap.played ∧
    ap'.samples_since_resync = ap.samples_since_resync ∧
    ap.swr_buf_alloc_size ≤ ap'.swr_buf_alloc_size := by
  simp only [sc_audio_player_get_swr_buf] at h
  split at h
  · split at h
    · cases h
      refine ⟨rfl, rfl, rfl, rfl, rfl, rfl, rfl, rfl, ?_⟩
      show ap.swr_buf_alloc_size ≤ sc_audiobuf_to_bytes ap.buf n + 4096
      omega
    · cases h
  · cases h
    exact ⟨rfl, rfl, rfl, rfl, rfl, rfl, rfl, rfl, le_refl _⟩

theorem push_locked_proj (ap : AudioPlayer) (f : Nat) (d : List Int) (w : Nat) :
    (sc_audio_player_push_locked ap f d w).1.played = ap.played ∧
    (sc_audio_player_push_locked ap f d w).1.sample_rate = ap.sample_rate ∧
    (sc_audio_player_push_locked ap f d w).1.target_buffering
      = ap.target_buffering ∧
    (sc_audio_player_push_locked ap f d w).1.samples_since_resync
      = ap.samples_since_resync ∧
    (sc_audio_player_push_locked ap f d w).1.received = true ∧
    (sc_audio_player_push_locked ap f d w).1.swr_buf_alloc_size
      = ap.swr_buf_alloc_size := by
  simp only [sc_audio_player_push_locked]
  split <;> exact ⟨rfl, rfl, rfl, rfl, rfl, rfl⟩

theorem push_resync_proj (pl : Bool) (ap2 : AudioPlayer) (b w : Nat) :
    (sc_audio_player_push_resync pl ap2 b w).1.buf = ap2.buf ∧
    (sc_audio_player_push_resync pl ap2 b w).1.avg_buffering
      = ap2.avg_buffering ∧
    (sc_audio_player_push_resync pl ap2 b w).1.played = ap2.played ∧
    (sc_audio_player_push_resync pl ap2 b w).1.sample_rate = ap2.sample_rate ∧
    (sc_audio_player_push_resync pl ap2 b w).1.target_buffering
      = ap2.target_buffering ∧
    (sc_audio_player_push_resync pl ap2 b w).1.received = ap2.received ∧
    (sc_audio_player_push_resync pl ap2 b w).1.swr_buf_alloc_size
      = ap2.swr_buf_alloc_size := by
  simp only [sc_audio_player_push_resync]
  split
  · split <;> exact ⟨rfl, rfl, rfl, rfl, rfl, rfl, rfl⟩
  · exact ⟨rfl, rfl, rfl, rfl, rfl, rfl, rfl⟩

theorem push_eq_converted (ap0 : AudioPlayer) (f sd : Nat) (aok : Bool)
    (cr : Int) (so : List Int) (ap' : AudioPlayer)
    (hget : sc_audio_player_get_swr_buf ap0 (sd + f + 256) aok = some ap')
    (hcr : ¬ cr < 0) :
    sc_audio_player_frame_sink_push ap0 f sd aok cr so
      = sc_audio_player_push_converted ap' f (min cr.toNat (sd + f + 256)) so := by
  simp only [sc_audio_player_frame_sink_push, hget]
  rw [if_neg hcr]

theorem push_ok_elim (ap0 : AudioPlayer) (f sd : Nat) (aok : Bool) (cr : Int)
    (so : List Int)
    (hok : (sc_audio_player_frame_sink_push ap0 f sd aok cr so).ok = true) :
    ∃ ap', sc_audio_player_get_swr_buf ap0 (sd + f + 256) aok = some ap'
      ∧ ¬ cr < 0 := by
  simp only [sc_audio_player_frame_sink_push] at hok
  rcases hg : sc_audio_player_get_swr_buf ap0 (sd + f + 256) aok with _ | ap'
  · simp only [hg] at hok
    cases hok
  · simp only [hg] at hok
    by_cases hcr : cr < 0
    · rw [if_pos hcr] at hok
      cases hok
    · exact ⟨ap', rfl, hcr⟩

/-! ## Claim C3: initial-buffering silence -/

/-- C3: while `played` is false, a pull callback that observes
`can_read + margin < target_buffering` (with `margin = 30 * sample_rate /
1000` samples) writes all-silence into the whole output buffer and returns
with the player state unchanged, in particular without setting `played`;
moreover any callback that leaves `played` false emits only silent
samples. -/
theorem callback_initial_buffering_silence (ap : AudioPlayer) (len : Nat)
    (h1 : ap.played = false)
    (h2 : sc_audiobuf_can_read ap.buf + 30 * ap.sample_rate / 1000
        < ap.target_buffering) :
    sc_audio_player_sdl_callback ap len
        = (ap, List.replicate (len / ap.buf.sample_size) 0) ∧
    ∀ (bp : AudioPlayer) (l : Nat),
      (sc_audio_player_sdl_callback bp l).1.played = false →
      ∀ x ∈ (sc_audio_player_sdl_callback bp l).2, x = 0 := by
  constructor
  · simp only [sc_audio_player_sdl_callback, sc_audiobuf_to_samples]
    rw [if_pos ⟨h1, h2⟩]
  · intro bp l hpl x hx
    by_cases hg : bp.played = false ∧
        sc_audiobuf_can_read bp.buf + 30 * bp.sample_rate / 1000
          < bp.target_buffering
    · simp only [sc_audio_player_sdl_callback, if_pos hg] at hx
      exact List.eq_of_mem_replicate hx
    · simp [sc_audio_player_sdl_callback, if_neg hg] at hpl

/-- Initial-buffering state used to instantiate the C3 theorem: 48 kHz,
target 2400 samples, empty ring, a 960-byte request for 240 samples. -/
def apW3 : AudioPlayer :=
  { sample_rate := 48000, target_buffering := 2400,
    buf := ⟨4, 50400, []⟩,
    avg_buffering := ⟨32, 0, 0⟩,
    previous_can_write := 50400, received := false, played := false,
    samples_since_resync := 0, swr_buf_alloc_size := 4096 }

/-- Witness for C3 at a concrete input. -/
theorem callback_initial_buffering_silence_witness :
    apW3.played = false ∧
    sc_audiobuf_can_read apW3.buf + 30 * apW3.sample_rate / 1000
      < apW3.target_buffering ∧
    sc_audio_player_sdl_callback apW3 960 = (apW3, List.replicate 240 0) :=
  ⟨rfl, by decide,
    (callback_initial_buffering_silence apW3 960 rfl (by decide)).1⟩

/-! ## Claim C9: the callback is total and writes exactly `len` bytes -/

/-- C9: for every pull callback the output is exactly
`count = len / sample_size` samples (that is, `count * sample_size` bytes):
the initial-buffering gate emits `count` silent samples, and otherwise the
output is the readable prefix of the ring followed by zero-fill for the
shortfall. -/
theorem callback_writes_exactly (ap : AudioPlayer) (len : Nat)
    (_hlen : 0 < len) :
    ((sc_audio_player_sdl_callback ap len).2).length
        = len / ap.buf.sample_size ∧
    (sc_audio_player_sdl_callback ap len).2
      = (if ap.played = false ∧
            sc_audiobuf_can_read ap.buf + 30 * ap.sample_rate / 1000
              < ap.target_buffering
         then List.replicate (len / ap.buf.sample_size) 0
         else ap.buf.data.take
              (min (sc_audiobuf_can_read ap.buf) (len / ap.buf.sample_size))
            ++ List.replicate (len / ap.buf.sample_size
              - min (sc_audiobuf_can_read ap.buf) (len / ap.buf.sample_size))
              0) := by
  refine ⟨?_, ?_⟩
  · simp only [sc_audio_player_sdl_callback, sc_audiobuf_to_samples,
      sc_audiobuf_read, sc_audiobuf_can_read]
    split
    · simp
    · simp [List.length_take]
  · simp only [sc_audio_player_sdl_callback, sc_audiobuf_to_samples,
      sc_audiobuf_read, sc_audiobuf_can_read]
    split
    · rfl
    · rfl

/-- Playing state with 3 buffered samples used to instantiate the C9
theorem: a 20-byte request (5 samples of 4 bytes) reads 3 real samples and
zero-fills 2. -/
def apW9 : AudioPlayer :=
  { sample_rate := 48000, target_buffering := 2400,
    buf := ⟨4, 50400, [5, 6, 7]⟩,
    avg_buffering := ⟨32, 3, 32⟩,
    previous_can_write := 50397, received := true, played := true,
    samples_since_resync := 0, swr_buf_alloc_size := 4096 }

/-- Witness for C9 at a concrete input. -/
theorem callback_writes_exactly_witness :
    (0 : Nat) < 20 ∧
    ((sc_audio_player_sdl_callback apW9 20).2).length = 5 ∧
    (sc_audio_player_sdl_callback apW9 20).2 = [5, 6, 7, 0, 0] :=
  ⟨by decide, (callback_writes_exactly apW9 20 (by decide)).1, by decide⟩

/-! ## Claim C4: underflow silence adjusts `avg` iff `received` -/

/-- C4: a pull callback past the initial-buffering gate whose request
exceeds the readable samples inserts silence, and the moving-average `avg`
field grows by exactly the silent count precisely when `received` is true;
with an empty ring the whole output is silence. -/
theorem callback_underflow_avg (ap : AudioPlayer) (len : Nat)
    (hg : ¬ (ap.played = false ∧
        sc_audiobuf_can_read ap.buf + 30 * ap.sample_rate / 1000
          < ap.target_buffering))
    (hu : sc_audiobuf_can_read ap.buf < len / ap.buf.sample_size) :
    ((sc_audio_player_sdl_callback ap len).1.avg_buffering.avg
      = if ap.received = true
        then ap.avg_buffering.avg
          + ((len / ap.buf.sample_size - sc_audiobuf_can_read ap.buf : Nat) : ℚ)
        else ap.avg_buffering.avg) ∧
    (sc_audiobuf_can_read ap.buf = 0 →
      (sc_audio_player_sdl_callback ap len).2
        = List.replicate (len / ap.buf.sample_size) 0) := by
  have hmin : min (sc_audiobuf_can_read ap.buf) (len / ap.buf.sample_size)
      = sc_audiobuf_can_read ap.buf := min_eq_left (le_of_lt hu)
  constructor
  · simp only [sc_audio_player_sdl_callback, sc_audiobuf_to_samples,
      if_neg hg]
    split
    · next h2 =>
        simp [hmin, h2.2]
    · next h2 =>
        have hrec : ¬ ap.received = true := by
          intro hr
          exact h2 ⟨by rw [hmin]; exact hu, hr⟩
        rw [if_neg hrec]
  · intro h0
    have hdata : ap.buf.data = [] := by
      rw [sc_audiobuf_can_read] at h0
      exact List.length_eq_zero.mp h0
    simp [sc_audio_player_sdl_callback, sc_audiobuf_to_samples,
      sc_audiobuf_read, if_neg hg, hdata, hmin, h0]
    split <;> rfl

/-- Scenario S2 of the spec: `played` true, empty ring, `received` false,
a request for 240 samples. Used to instantiate the C4 theorem. -/
def apW4 : AudioPlayer :=
  { sample_rate := 48000, target_buffering := 2400,
    buf := ⟨4, 50400, []⟩,
    avg_buffering := ⟨32, 0, 0⟩,
    previous_can_write := 50400, received := false, played := true,
    samples_since_resync := 0, swr_buf_alloc_size := 4096 }

/-- Witness for C4 at the S2 input: 240 samples of silence are produced and
`avg` does not change because `received` is false. -/
theorem callback_underflow_avg_witness :
    apW4.received = false ∧
    (sc_audio_player_sdl_callback apW4 960).1.avg_buffering.avg
      = apW4.avg_buffering.avg ∧
    (sc_audio_player_sdl_callback apW4 960).2 = List.replicate 240 0 := by
  have h := callback_underflow_avg apW4 960 (by decide) (by decide)
  refine ⟨rfl, ?_, h.2 (by decide)⟩
  have h1 := h.1
  rw [if_neg (by decide : ¬ apW4.received = true)] at h1
  exact h1

/-! ## Claim C7 (corrected): when the `played` latch is set -/

/-- State showing that a callback whose entire output is silence does set
`played`: `played` is false, the ring is empty, and the target buffering is
0, so the initial-buffering gate does not fire. -/
def apC7 : AudioPlayer :=
  { sample_rate := 1000, target_buffering := 0,
    buf := ⟨1, 4, []⟩,
    avg_buffering := ⟨32, 0, 0⟩,
    previous_can_write := 4, received := false, played := false,
    samples_since_resync := 0, swr_buf_alloc_size := 4096 }

/-- Counterexample to C7 as stated: this pull callback outputs only silence
(one silent sample), yet it sets `played` from false to true. -/
theorem played_set_by_all_silence_callback :
    apC7.played = false ∧
    (sc_audio_player_sdl_callback apC7 1).2 = [0] ∧
    (sc_audio_player_sdl_callback apC7 1).1.played = true := by
  decide

/-- C7 as amended: the `played` latch is set exactly by the first pull
callback that passes the initial-buffering gate, i.e. that does not return
initial-buffering silence; a post-gate callback sets `played` even when its
entire output happens to be underflow silence. -/
theorem played_latch_iff (ap : AudioPlayer) (len : Nat) :
    (sc_audio_player_sdl_callback ap len).1.played = true
      ↔ (ap.played = true ∨
          ¬ sc_audiobuf_can_read ap.buf + 30 * ap.sample_rate / 1000
            < ap.target_buffering) := by
  simp only [sc_audio_player_sdl_callback]
  split
  · next hgate =>
      obtain ⟨hp, hlt⟩ := hgate
      simp [hp, hlt]
  · next hgate =>
      refine iff_of_true rfl ?_
      by_cases hp : ap.played = true
      · exact Or.inl hp
      · refine Or.inr fun hlt => hgate ⟨?_, hlt⟩
        exact Bool.not_eq_true ap.played ▸ hp

/-! ## Claim C5: the overflow slow path -/

/-- C5: the slow path of `sc_audio_player_frame_sink_push`, entered with
`samples_written > can_write` and called with `buffered_samples = can_read`:
a frame larger than the whole ring first has its source advanced by the
excess and `samples_written` clamped to `capacity`; then the
`samples_written - can_write` oldest readable samples are dropped, `avg` is
decreased by the dropped count exactly when `played` is true, and the
remaining samples are appended to the ring. -/
theorem push_slow_path_overflow (buf : SCAudioBuf) (avg : ℚ) (played : Bool)
    (swr_data : List Int) (samples_written : Nat)
    (hov : sc_audiobuf_can_write buf < samples_written) :
    (sc_audio_player_slow_write buf avg played (sc_audiobuf_can_read buf)
        swr_data samples_written).1
      = { buf with data :=
          buf.data.drop (min samples_written buf.capacity
            - sc_audiobuf_can_write buf)
          ++ swr_data.drop (samples_written - buf.capacity) } ∧
    (sc_audio_player_slow_write buf avg played (sc_audiobuf_can_read buf)
        swr_data samples_written).2.1
      = (if played = true
         then avg - ((min samples_written buf.capacity
            - sc_audiobuf_can_write buf : Nat) : ℚ)
         else avg) ∧
    (sc_audio_player_slow_write buf avg played (sc_audiobuf_can_read buf)
        swr_data samples_written).2.2.1
      = sc_audiobuf_can_read buf
        - (min samples_written buf.capacity - sc_audiobuf_can_write buf) ∧
    (sc_audio_player_slow_write buf avg played (sc_audiobuf_can_read buf)
        swr_data samples_written).2.2.2
      = min samples_written buf.capacity := by
  rcases Nat.lt_or_ge buf.capacity samples_written with hcap | hcap
  · -- a single frame larger than the entire ring
    have hmin : min samples_written buf.capacity = buf.capacity :=
      min_eq_right (le_of_lt hcap)
    rcases Nat.lt_or_ge (sc_audiobuf_can_write buf) buf.capacity
      with hlt | hge
    · refine ⟨?_, ?_, ?_, ?_⟩ <;>
        simp only [sc_audio_player_slow_write, sc_audiobuf_capacity,
          gt_iff_lt, if_pos hov, if_pos hcap, if_pos hlt, hmin,
          sc_audiobuf_write, sc_audiobuf_skip, sc_audiobuf_can_read]
    · -- empty ring: capacity = can_write, nothing to skip
      have hz : buf.capacity - sc_audiobuf_can_write buf = 0 := by omega
      refine ⟨?_, ?_, ?_, ?_⟩ <;>
        simp only [sc_audio_player_slow_write, sc_audiobuf_capacity,
          gt_iff_lt, if_pos hov, if_pos hcap, if_neg (not_lt.mpr hge),
          hmin, hz, sc_audiobuf_write, sc_audiobuf_skip,
          sc_audiobuf_can_read, List.drop_zero, Nat.cast_zero, sub_zero,
          Nat.sub_zero, ite_self]
  · -- the frame fits in the ring: no source advance, no clamping
    have hmin : min samples_written buf.capacity = samples_written :=
      min_eq_left hcap
    have hdrop : samples_written - buf.capacity = 0 :=
      Nat.sub_eq_zero_of_le hcap
    refine ⟨?_, ?_, ?_, ?_⟩ <;>
      simp only [sc_audio_player_slow_write, sc_audiobuf_capacity,
        gt_iff_lt, if_pos hov, if_neg (not_lt.mpr hcap), hmin, hdrop,
        List.drop_zero, sc_audiobuf_write, sc_audiobuf_skip,
        sc_audiobuf_can_read]

/-- Overflow state used to instantiate the C5 theorem: capacity 6, 5
buffered samples, a write of 2 samples while playing; 1 oldest sample is
skipped, the 2 new samples are written, `avg` drops by 1. -/
theorem push_slow_path_overflow_witness :
    sc_audiobuf_can_write ⟨1, 6, [1, 2, 3, 4, 5]⟩ < 2 ∧
    (sc_audio_player_slow_write ⟨1, 6, [1, 2, 3, 4, 5]⟩ 9 true
        (sc_audiobuf_can_read ⟨1, 6, [1, 2, 3, 4, 5]⟩) [7, 8] 2).1
      = ⟨1, 6, [2, 3, 4, 5, 7, 8]⟩ ∧
    (sc_audio_player_slow_write ⟨1, 6, [1, 2, 3, 4, 5]⟩ 9 true
        (sc_audiobuf_can_read ⟨1, 6, [1, 2, 3, 4, 5]⟩) [7, 8] 2).2.1
      = 8 := by
  have h := push_slow_path_overflow ⟨1, 6, [1, 2, 3, 4, 5]⟩ 9 true [7, 8] 2
    (by decide)
  refine ⟨by decide, ?_, ?_⟩
  · rw [h.1]
    simp [sc_audiobuf_can_write]
  · rw [h.2.1]
    norm_num [sc_audiobuf_can_write]

/-! ## Claim C10: a failing push leaves the shared state unchanged -/

/-- C10: a push that fails (scratch-buffer allocation failure or resampler
convert failure) hands nothing to the resampler and leaves all shared
playback state unchanged — the ring, the moving average, `played`,
`received`, `previous_can_write` and `samples_since_resync`; only the
producer-local scratch capacity may have grown. -/
theorem push_failure_preserves_state (ap0 : AudioPlayer) (f sd : Nat)
    (aok : Bool) (cr : Int) (so : List Int)
    (hfail : (sc_audio_player_frame_sink_push ap0 f sd aok cr so).ok
      = false) :
    (sc_audio_player_frame_sink_push ap0 f sd aok cr so).ap.buf = ap0.buf ∧
    (sc_audio_player_frame_sink_push ap0 f sd aok cr so).ap.avg_buffering
      = ap0.avg_buffering ∧
    (sc_audio_player_frame_sink_push ap0 f sd aok cr so).ap.played
      = ap0.played ∧
    (sc_audio_player_frame_sink_push ap0 f sd aok cr so).ap.received
      = ap0.received ∧
    (sc_audio_player_frame_sink_push ap0 f sd aok cr so).ap.previous_can_write
      = ap0.previous_can_write ∧
    (sc_audio_player_frame_sink_push ap0 f sd aok cr
        so).ap.samples_since_resync
      = ap0.samples_since_resync ∧
    ap0.swr_buf_alloc_size
      ≤ (sc_audio_player_frame_sink_push ap0 f sd aok cr
          so).ap.swr_buf_alloc_size ∧
    (sc_audio_player_frame_sink_push ap0 f sd aok cr so).comp = none := by
  rcases hg : sc_audio_player_get_swr_buf ap0 (sd + f + 256) aok with _ | ap'
  · have heq : sc_audio_player_frame_sink_push ap0 f sd aok cr so
        = ⟨false, ap0, 0, 0, none⟩ := by
      simp only [sc_audio_player_frame_sink_push, hg]
    rw [heq]
    exact ⟨rfl, rfl, rfl, rfl, rfl, rfl, le_refl _, rfl⟩
  · by_cases hcr : cr < 0
    · have heq : sc_audio_player_frame_sink_push ap0 f sd aok cr so
          = ⟨false, ap', 0, 0, none⟩ := by
        simp only [sc_audio_player_frame_sink_push, hg]
        rw [if_pos hcr]
      obtain ⟨-, -, h3, h4, h5, h6, h7, h8, h9⟩ :=
        get_swr_buf_some_proj ap0 (sd + f + 256) aok ap' hg
      rw [heq]
      exact ⟨h3, h4, h7, h6, h5, h8, h9, rfl⟩
    · exfalso
      rw [push_eq_converted ap0 f sd aok cr so ap' hg hcr] at hfail
      simp only [sc_audio_player_push_converted] at hfail
      cases hfail

/-- Push arguments whose conversion fails, used to instantiate the C10
theorem. -/
def apW10 : AudioPlayer :=
  { sample_rate := 48000, target_buffering := 2400,
    buf := ⟨4, 50400, [3]⟩,
    avg_buffering := ⟨32, 7, 5⟩,
    previous_can_write := 50399, received := true, played := true,
    samples_since_resync := 17, swr_buf_alloc_size := 4096 }

/-- Witness for C10 at a concrete input: `swr_convert` reports an error and
the push changes nothing. -/
theorem push_failure_preserves_state_witness :
    (sc_audio_player_frame_sink_push apW10 960 0 true (-1) []).ok = false ∧
    (sc_audio_player_frame_sink_push apW10 960 0 true (-1) []).ap.buf
      = apW10.buf ∧
    (sc_audio_player_frame_sink_push apW10 960 0 true (-1)
        []).ap.samples_since_resync
      = apW10.samples_since_resync ∧
    (sc_audio_player_frame_sink_push apW10 960 0 true (-1) []).comp = none := by
  have h := push_failure_preserves_state apW10 960 0 true (-1) [] (by decide)
  exact ⟨by decide, h.1, h.2.2.2.2.2.1, h.2.2.2.2.2.2.2⟩

/-! ## Claim C8: `played` is never unset -/

/-- One step of the open session: either the device pulls `len` bytes, or
the producer pushes a frame through the resampler oracle. -/
inductive PlayerOp where
  | pull (len : Nat)
  | frame (frame_nb_samples swr_delay : Nat) (alloc_ok : Bool)
      (convert_ret : Int) (swr_out : List Int)

/-- The state reached after one operation of the open session. -/
def player_step (ap : AudioPlayer) (op : PlayerOp) : AudioPlayer :=
  match op with
  | .pull len => (sc_audio_player_sdl_callback ap len).1
  | .frame f sd aok cr so =>
      (sc_audio_player_frame_sink_push ap f sd aok cr so).ap

theorem callback_played_mono (ap : AudioPlayer) (len : Nat)
    (h : ap.played = true) :
    (sc_audio_player_sdl_callback ap len).1.played = true := by
  simp only [sc_audio_player_sdl_callback]
  split
  · next hgate => rw [h] at hgate; cases hgate.1
  · rfl

theorem push_played_eq (ap0 : AudioPlayer) (f sd : Nat) (aok : Bool)
    (cr : Int) (so : List Int) :
    (sc_audio_player_frame_sink_push ap0 f sd aok cr so).ap.played
      = ap0.played := by
  rcases hg : sc_audio_player_get_swr_buf ap0 (sd + f + 256) aok with _ | ap'
  · simp only [sc_audio_player_frame_sink_push, hg]
  · have hps := (get_swr_buf_some_proj ap0 (sd + f + 256) aok ap'
      hg).2.2.2.2.2.2.1
    by_cases hcr : cr < 0
    · simp only [sc_audio_player_frame_sink_push, hg, if_pos hcr]
      exact hps
    · rw [push_eq_converted ap0 f sd aok cr so ap' hg hcr]
      simp only [sc_audio_player_push_converted]
      rw [(push_resync_proj _ _ _ _).2.2.1, (push_locked_proj _ _ _ _).1]
      exact hps

/-- C8: within one open session, once `played` is true it stays true under
any sequence of pushes and pull callbacks (in particular underflow during
playback does not fall back to the buffering state). -/
theorem played_never_unset (ops : List PlayerOp) (ap : AudioPlayer)
    (h : ap.played = true) :
    (ops.foldl player_step ap).played = true := by
  induction ops generalizing ap with
  | nil => exact h
  | cons op rest ih =>
      refine ih _ ?_
      cases op with
      | pull len => exact callback_played_mono ap len h
      | frame f sd aok cr so =>
          simp only [player_step]
          rw [push_played_eq]
          exact h

/-- Playing state used to instantiate the C8 theorem. -/
def apW8 : AudioPlayer :=
  { sample_rate := 48000, target_buffering := 2400,
    buf := ⟨4, 50400, []⟩,
    avg_buffering := ⟨32, 0, 3⟩,
    previous_can_write := 50400, received := true, played := true,
    samples_since_resync := 0, swr_buf_alloc_size := 4096 }

/-- Witness for C8: an underflowing pull followed by a failing and a
successful push leave `played` set. -/
theorem played_never_unset_witness :
    apW8.played = true ∧
    (([PlayerOp.pull 960, PlayerOp.frame 0 0 true (-1) [],
        PlayerOp.frame 2 0 true 2 [4, 5]].foldl player_step apW8)).played
      = true :=
  ⟨rfl, played_never_unset _ apW8 rfl⟩

/-! ## Claims C1 and C2: the once-per-second compensation recompute -/

theorem push_resync_comp_true (ap2 : AudioPlayer) (b w : Nat) :
    (sc_audio_player_push_resync true ap2 b w).2
      = if ap2.sample_rate ≤ ap2.samples_since_resync + w
        then some (sc_audio_player_recompute ap2.target_buffering
          ap2.sample_rate (sc_average_get ap2.avg_buffering) b)
        else none := by
  simp only [sc_audio_player_push_resync]
  rw [if_pos trivial]
  split <;> rfl

theorem push_resync_state_true (ap2 : AudioPlayer) (b w : Nat) :
    (sc_audio_player_push_resync true ap2 b w).1
      = { ap2 with samples_since_resync :=
          if ap2.sample_rate ≤ ap2.samples_since_resync + w then 0
          else ap2.samples_since_resync + w } := by
  simp only [sc_audio_player_push_resync]
  rw [if_pos trivial]
  split <;> rfl

/-- C2: whenever a push triggers the once-per-second compensation recompute
and the raw `diff = target_buffering - avg` is negative while the
instantaneous buffered count observed during that push is below
`target_buffering`, the pair handed to the resampler carries `diff = 0`: the
resampler is never asked to accelerate in that situation. -/
theorem push_no_accel_below_target (ap0 : AudioPlayer) (f sd : Nat)
    (aok : Bool) (cr : Int) (so : List Int)
    (hp : ap0.played = true)
    (hok : (sc_audio_player_frame_sink_push ap0 f sd aok cr so).ok = true)
    (hsome : (sc_audio_player_frame_sink_push ap0 f sd aok cr so).comp.isSome
      = true)
    (hneg : cFloatToInt ((ap0.target_buffering : ℚ)
      - sc_average_get
        (sc_audio_player_frame_sink_push ap0 f sd aok cr
          so).ap.avg_buffering) < 0)
    (hlow : (sc_audio_player_frame_sink_push ap0 f sd aok cr so).buffered
      < ap0.target_buffering) :
    (sc_audio_player_frame_sink_push ap0 f sd aok cr so).comp
      = some (0, 4 * (ap0.sample_rate : Int)) := by
  obtain ⟨ap', hget, hcr⟩ := push_ok_elim ap0 f sd aok cr so hok
  have hpe := push_eq_converted ap0 f sd aok cr so ap' hget hcr
  rw [hpe] at hsome hneg hlow ⊢
  obtain ⟨hr1, hr2, -, -, -, -, hr7, -, -⟩ :=
    get_swr_buf_some_proj ap0 (sd + f + 256) aok ap' hget
  have hp' : ap'.played = true := by rw [hr7]; exact hp
  simp only [sc_audio_player_push_converted] at hsome hneg hlow ⊢
  rw [hp'] at hsome hneg ⊢
  set lk := sc_audio_player_push_locked ap' f
    (List.take (min cr.toNat (sd + f + 256)) so)
    (min cr.toNat (sd + f + 256)) with hlk
  rw [push_resync_comp_true] at hsome ⊢
  rw [push_resync_state_true] at hneg
  have hneg' : cFloatToInt ((ap0.target_buffering : ℚ)
      - sc_average_get lk.1.avg_buffering) < 0 := hneg
  by_cases htrig : lk.1.sample_rate ≤ lk.1.samples_since_resync + lk.2.2
  · rw [if_pos htrig]
    have hl := push_locked_proj ap' f
      (List.take (min cr.toNat (sd + f + 256)) so)
      (min cr.toNat (sd + f + 256))
    rw [← hlk] at hl
    rw [hl.2.2.1, hr2, hl.2.1, hr1]
    simp only [sc_audio_player_recompute]
    rw [if_pos ⟨hneg', hlow⟩]
    have hm : (0 : Int) ≤ 4 * (ap0.sample_rate : Int) / 50 :=
      Int.ediv_nonneg (by positivity) (by norm_num)
    simp only [clampInt]
    rw [min_eq_left hm, max_eq_right (neg_nonpos.mpr hm)]
  · rw [if_neg htrig] at hsome
    simp at hsome

/-- State with a negative raw diff at the recompute while the instantaneous
level is below target: the smoothed average at the recompute is 1555/16 next
to a target of 50, but only 10 samples are buffered. Used for the C2
witness and the C1 counterexample. -/
def apC1c : AudioPlayer :=
  { sample_rate := 100, target_buffering := 50,
    buf := ⟨1, 200, []⟩,
    avg_buffering := ⟨32, 100, 32⟩,
    previous_can_write := 200, received := true, played := true,
    samples_since_resync := 99, swr_buf_alloc_size := 100000 }

theorem apC1c_push_avg :
    (sc_audio_player_frame_sink_push apC1c 10 0 true 10
        (List.replicate 10 0)).ap.avg_buffering.avg = 1555 / 16 := by
  have ht : (10 : Int).toNat = 10 := by decide
  norm_num [ht, sc_audio_player_frame_sink_push, sc_audio_player_get_swr_buf,
    sc_audio_player_push_converted, sc_audio_player_push_locked,
    sc_audio_player_push_resync, sc_audio_player_slow_write,
    sc_audio_player_recompute, sc_average_push, sc_average_get,
    cFloatToInt, clampInt, sc_audiobuf_write, sc_audiobuf_skip,
    sc_audiobuf_can_read, sc_audiobuf_can_write, sc_audiobuf_capacity,
    sc_audiobuf_to_bytes, sc_audiobuf_to_samples, SC_AUDIO_OUTPUT_BUFFER_MS,
    apC1c]

theorem apC1c_push_diff_neg :
    cFloatToInt ((apC1c.target_buffering : ℚ)
      - sc_average_get (sc_audio_player_frame_sink_push apC1c 10 0 true 10
        (List.replicate 10 0)).ap.avg_buffering) < 0 := by
  rw [sc_average_get, apC1c_push_avg]
  have h1 : ((apC1c.target_buffering : ℚ) - 1555 / 16).num = -755 := by
    norm_num [apC1c]
  have h2 : ((apC1c.target_buffering : ℚ) - 1555 / 16).den = 16 := by
    norm_num [apC1c]
  rw [cFloatToInt, h1, h2]
  decide

/-- Witness for C2 at a concrete input: the recompute fires with raw diff
trunc(50 - 1555/16) = -47 and 10 < 50 buffered samples, and the resampler
receives diff = 0. -/
theorem push_no_accel_below_target_witness :
    apC1c.played = true ∧
    (sc_audio_player_frame_sink_push apC1c 10 0 true 10
        (List.replicate 10 0)).comp = some (0, 400) :=
  ⟨rfl, push_no_accel_below_target apC1c 10 0 true 10 (List.replicate 10 0)
    rfl (by decide) (by decide) apC1c_push_diff_neg (by decide)⟩

/-- Counterexample to C1 as stated: at this push the recompute fires and the
smoothed average is 1555/16, so the claim predicts that the resampler
receives the clamped `diff = clamp(trunc(50 - 1555/16)) = -8`; the code
instead hands `diff = 0`, because the acceleration veto (claim C2) zeroes a
negative diff whenever the instantaneous buffered count (here 10) is below
the target (here 50) before clamping. -/
theorem push_resync_claim_counterexample :
    apC1c.played = true ∧
    (sc_audio_player_frame_sink_push apC1c 10 0 true 10
        (List.replicate 10 0)).ok = true ∧
    sc_average_get (sc_audio_player_frame_sink_push apC1c 10 0 true 10
        (List.replicate 10 0)).ap.avg_buffering = 1555 / 16 ∧
    clampInt (cFloatToInt ((apC1c.target_buffering : ℚ) - 1555 / 16))
        (-(4 * (apC1c.sample_rate : Int) / 50))
        (4 * (apC1c.sample_rate : Int) / 50) = -8 ∧
    (sc_audio_player_frame_sink_push apC1c 10 0 true 10
        (List.replicate 10 0)).comp ≠ some (-8, 400) ∧
    (sc_audio_player_frame_sink_push apC1c 10 0 true 10
        (List.replicate 10 0)).comp = some (0, 400) := by
  have hcomp : (sc_audio_player_frame_sink_push apC1c 10 0 true 10
      (List.replicate 10 0)).comp = some (0, 400) := by
    have ht : (10 : Int).toNat = 10 := by decide
    norm_num [ht, sc_audio_player_frame_sink_push,
      sc_audio_player_get_swr_buf, sc_audio_player_push_converted,
      sc_audio_player_push_locked, sc_audio_player_push_resync,
      sc_audio_player_slow_write, sc_audio_player_recompute,
      sc_average_push, sc_average_get, cFloatToInt, clampInt,
      sc_audiobuf_write, sc_audiobuf_skip, sc_audiobuf_can_read,
      sc_audiobuf_can_write, sc_audiobuf_capacity, sc_audiobuf_to_bytes,
      sc_audiobuf_to_samples, SC_AUDIO_OUTPUT_BUFFER_MS, apC1c]
    decide
  have hclamp : clampInt (cFloatToInt ((apC1c.target_buffering : ℚ)
        - 1555 / 16))
      (-(4 * (apC1c.sample_rate : Int) / 50))
      (4 * (apC1c.sample_rate : Int) / 50) = -8 := by
    have h1 : ((apC1c.target_buffering : ℚ) - 1555 / 16).num = -755 := by
      norm_num [apC1c]
    have h2 : ((apC1c.target_buffering : ℚ) - 1555 / 16).den = 16 := by
      norm_num [apC1c]
    rw [cFloatToInt, h1, h2, clampInt]
    decide
  refine ⟨rfl, by decide, ?_, hclamp, ?_, hcomp⟩
  · rw [sc_average_get, apC1c_push_avg]
  · rw [hcomp]
    decide

/-- C1 as amended: for every successful push with `played` true,
`samples_since_resync` is increased by the (possibly clamped) number of
resampled samples written and reset to 0 once it reaches `sample_rate`, in
which case the resampler receives the pair computed by
`sc_audio_player_recompute` from the smoothed average and the push's
buffered count: `diff = target_buffering - avg` — except that a negative
diff is zeroed when the instantaneous buffered count is below the target
(claim C2) — clamped to plus or minus `distance / 50`, with
`distance = 4 * sample_rate`. -/
theorem push_resync_accounting (ap0 : AudioPlayer) (f sd : Nat) (aok : Bool)
    (cr : Int) (so : List Int)
    (hp : ap0.played = true)
    (hok : (sc_audio_player_frame_sink_push ap0 f sd aok cr so).ok = true) :
    (sc_audio_player_frame_sink_push ap0 f sd aok cr
        so).ap.samples_since_resync
      = (if ap0.sample_rate ≤ ap0.samples_since_resync
            + (sc_audio_player_frame_sink_push ap0 f sd aok cr so).written
         then 0
         else ap0.samples_since_resync
            + (sc_audio_player_frame_sink_push ap0 f sd aok cr so).written) ∧
    (sc_audio_player_frame_sink_push ap0 f sd aok cr so).comp
      = (if ap0.sample_rate ≤ ap0.samples_since_resync
            + (sc_audio_player_frame_sink_push ap0 f sd aok cr so).written
         then some (sc_audio_player_recompute ap0.target_buffering
           ap0.sample_rate
           (sc_average_get (sc_audio_player_frame_sink_push ap0 f sd aok cr
             so).ap.avg_buffering)
           (sc_audio_player_frame_sink_push ap0 f sd aok cr so).buffered)
         else none) := by
  obtain ⟨ap', hget, hcr⟩ := push_ok_elim ap0 f sd aok cr so hok
  have hpe := push_eq_converted ap0 f sd aok cr so ap' hget hcr
  rw [hpe]
  obtain ⟨hr1, hr2, -, -, -, -, hr7, hr8, -⟩ :=
    get_swr_buf_some_proj ap0 (sd + f + 256) aok ap' hget
  have hp' : ap'.played = true := by rw [hr7]; exact hp
  simp only [sc_audio_player_push_converted]
  rw [hp']
  set lk := sc_audio_player_push_locked ap' f
    (List.take (min cr.toNat (sd + f + 256)) so)
    (min cr.toNat (sd + f + 256)) with hlk
  have hl := push_locked_proj ap' f
    (List.take (min cr.toNat (sd + f + 256)) so)
    (min cr.toNat (sd + f + 256))
  rw [← hlk] at hl
  rw [push_resync_state_true, push_resync_comp_true]
  rw [hl.2.1, hr1, hl.2.2.1, hr2, hl.2.2.2.1, hr8]
  exact ⟨rfl, rfl⟩

/-- Playing state matching scenario S5 of the spec: 48 kHz, the smoothed
average at the recompute works out to exactly 10000 next to a target of
20000, so `target - avg = 10000`. -/
def apC1w : AudioPlayer :=
  { sample_rate := 48000, target_buffering := 20000,
    buf := ⟨1, 100000, []⟩,
    avg_buffering := ⟨32, 320000 / 31, 32⟩,
    previous_can_write := 100000, received := true, played := true,
    samples_since_resync := 48000, swr_buf_alloc_size := 100000 }

/-- Witness for the amended C1 at the spec's S5 numbers: the recompute fires
with `target - avg = +10000` and the resampler receives the clamped
`diff = 4 * 48000 / 50 = 3840` with `distance = 192000`. -/
theorem push_resync_accounting_witness :
    apC1w.played = true ∧
    (sc_audio_player_frame_sink_push apC1w 0 0 true 0 []).ok = true ∧
    (sc_audio_player_frame_sink_push apC1w 0 0 true 0
        []).ap.samples_since_resync = 0 ∧
    (sc_audio_player_frame_sink_push apC1w 0 0 true 0 []).comp
      = some (3840, 192000) := by
  have h := push_resync_accounting apC1w 0 0 true 0 [] rfl (by decide)
  have havg : sc_average_get (sc_audio_player_frame_sink_push apC1w 0 0 true 0
      []).ap.avg_buffering = 10000 := by
    rw [sc_average_get]
    have ht : (0 : Int).toNat = 0 := by decide
    norm_num [ht, sc_audio_player_frame_sink_push,
      sc_audio_player_get_swr_buf, sc_audio_player_push_converted,
      sc_audio_player_push_locked, sc_audio_player_push_resync,
      sc_audio_player_slow_write, sc_audio_player_recompute,
      sc_average_push, sc_average_get, cFloatToInt, clampInt,
      sc_audiobuf_write, sc_audiobuf_skip, sc_audiobuf_can_read,
      sc_audiobuf_can_write, sc_audiobuf_capacity, sc_audiobuf_to_bytes,
      sc_audiobuf_to_samples, SC_AUDIO_OUTPUT_BUFFER_MS, apC1w]
  have hwr : (sc_audio_player_frame_sink_push apC1w 0 0 true 0 []).written
      = 0 := by decide
  have hbuf : (sc_audio_player_frame_sink_push apC1w 0 0 true 0 []).buffered
      = 0 := by decide
  refine ⟨rfl, by decide, ?_, ?_⟩
  · rw [h.1, hwr]
    decide
  · rw [h.2, hwr, hbuf, havg]
    rw [if_pos (by decide : apC1w.sample_rate
      ≤ apC1w.samples_since_resync + 0)]
    have h1 : ((apC1w.target_buffering : ℚ) - 10000).num = 10000 := by
      norm_num [apC1w]
    have h2 : ((apC1w.target_buffering : ℚ) - 10000).den = 1 := by
      norm_num [apC1w]
    simp only [sc_audio_player_recompute]
    rw [cFloatToInt, h1, h2]
    decide

/-! ## Claim C6: the post-push buffering bound -/

theorem slow_write_can_read_le (buf : SCAudioBuf) (avg : ℚ) (pl : Bool)
    (d : List Int) (w : Nat) (hd : d.length ≤ w) :
    sc_audiobuf_can_read (sc_audio_player_slow_write buf avg pl
        (sc_audiobuf_can_read buf) d w).1
      ≤ (sc_audio_player_slow_write buf avg pl (sc_audiobuf_can_read buf)
          d w).2.2.1
        + (sc_audio_player_slow_write buf avg pl (sc_audiobuf_can_read buf)
            d w).2.2.2 := by
  by_cases hov : sc_audiobuf_can_write buf < w
  · by_cases hc : buf.capacity < w
    · by_cases hs : sc_audiobuf_can_write buf < buf.capacity
      · simp only [sc_audio_player_slow_write, sc_audiobuf_capacity,
          gt_iff_lt, if_pos hov, if_pos hc, if_pos hs, sc_audiobuf_write,
          sc_audiobuf_skip, sc_audiobuf_can_read, List.length_append,
          List.length_drop]
        omega
      · simp only [sc_audio_player_slow_write, sc_audiobuf_capacity,
          gt_iff_lt, if_pos hov, if_pos hc, if_neg hs, sc_audiobuf_write,
          sc_audiobuf_can_read, List.length_append, List.length_drop]
        omega
    · by_cases hs : sc_audiobuf_can_write buf < w
      · simp only [sc_audio_player_slow_write, sc_audiobuf_capacity,
          gt_iff_lt, if_pos hov, if_neg hc, if_pos hs, sc_audiobuf_write,
          sc_audiobuf_skip, sc_audiobuf_can_read, List.length_append,
          List.length_drop]
        omega
      · exact absurd hov hs
  · simp only [sc_audio_player_slow_write, gt_iff_lt, if_neg hov,
      sc_audiobuf_write, sc_audiobuf_can_read, List.length_append]
    omega

theorem push_locked_can_read_le (ap : AudioPlayer) (f : Nat) (d : List Int)
    (w : Nat) (hd : d.length ≤ w) :
    sc_audiobuf_can_read (sc_audio_player_push_locked ap f d w).1.buf
      ≤ if ap.played = true
        then ap.target_buffering
          + 12 * SC_AUDIO_OUTPUT_BUFFER_MS * ap.sample_rate / 1000
          + ap.target_buffering / 10
        else ap.target_buffering
          + 2 * SC_AUDIO_OUTPUT_BUFFER_MS * ap.sample_rate / 1000 := by
  by_cases hl : w ≤ ap.previous_can_write
  · simp only [sc_audio_player_push_locked, if_pos hl]
    have h1 : sc_audiobuf_can_read (sc_audiobuf_write ap.buf d)
        ≤ sc_audiobuf_can_read ap.buf + w := by
      simp only [sc_audiobuf_write, sc_audiobuf_can_read,
        List.length_append]
      omega
    split
    · split
      · next hsk =>
          simp only [sc_audiobuf_skip, sc_audiobuf_can_read,
            List.length_drop] at *
          omega
      · next hsk =>
          simp only [sc_audiobuf_can_read] at *
          omega
    · split
      · next hsk =>
          simp only [sc_audiobuf_skip, sc_audiobuf_can_read,
            List.length_drop] at *
          omega
      · next hsk =>
          simp only [sc_audiobuf_can_read] at *
          omega
  · have hr := slow_write_can_read_le ap.buf ap.avg_buffering.avg ap.played
      d w hd
    simp only [sc_audio_player_push_locked, if_neg hl]
    split
    · split
      · next hsk =>
          simp only [sc_audiobuf_skip, sc_audiobuf_can_read,
            List.length_drop] at *
          omega
      · next hsk =>
          simp only [sc_audiobuf_can_read] at *
          omega
    · split
      · next hsk =>
          simp only [sc_audiobuf_skip, sc_audiobuf_can_read,
            List.length_drop] at *
          omega
      · next hsk =>
          simp only [sc_audiobuf_can_read] at *
          omega

/-- C6: after every successful push the readable sample count of the ring
is bounded: by `target_buffering + 12 * output_block_ms * sample_rate / 1000
+ target_buffering / 10` when `played` was true at the push, and by the
tighter `target_buffering + 2 * output_block_ms * sample_rate / 1000` when
it was false (with `output_block_ms = SC_AUDIO_OUTPUT_BUFFER_MS = 5`); any
excess is skipped before the push returns. -/
theorem push_buffering_bound (ap0 : AudioPlayer) (f sd : Nat) (aok : Bool)
    (cr : Int) (so : List Int)
    (hok : (sc_audio_player_frame_sink_push ap0 f sd aok cr so).ok = true) :
    sc_audiobuf_can_read
        (sc_audio_player_frame_sink_push ap0 f sd aok cr so).ap.buf
      ≤ if ap0.played = true
        then ap0.target_buffering
          + 12 * SC_AUDIO_OUTPUT_BUFFER_MS * ap0.sample_rate / 1000
          + ap0.target_buffering / 10
        else ap0.target_buffering
          + 2 * SC_AUDIO_OUTPUT_BUFFER_MS * ap0.sample_rate / 1000 := by
  obtain ⟨ap', hget, hcr⟩ := push_ok_elim ap0 f sd aok cr so hok
  rw [push_eq_converted ap0 f sd aok cr so ap' hget hcr]
  obtain ⟨hr1, hr2, -, -, -, -, hr7, -, -⟩ :=
    get_swr_buf_some_proj ap0 (sd + f + 256) aok ap' hget
  simp only [sc_audio_player_push_converted]
  rw [(push_resync_proj _ _ _ _).1]
  have hb := push_locked_can_read_le ap' f
    (List.take (min cr.toNat (sd + f + 256)) so)
    (min cr.toNat (sd + f + 256))
    (List.length_take_le _ _)
  rw [hr7, hr1, hr2] at hb
  exact hb

/-- Playing state close to its cap, used to instantiate the C6 theorem:
target 1000 at 1 kHz gives a bound of 1000 + 60 + 100 = 1160; a push of 500
samples onto 1100 buffered samples must leave at most 1160. -/
def apW6 : AudioPlayer :=
  { sample_rate := 1000, target_buffering := 1000,
    buf := ⟨1, 2000, List.replicate 1100 3⟩,
    avg_buffering := ⟨32, 1000, 32⟩,
    previous_can_write := 900, received := true, played := true,
    samples_since_resync := 0, swr_buf_alloc_size := 100000 }

/-- Witness for C6 at a concrete input. -/
theorem push_buffering_bound_witness :
    (sc_audio_player_frame_sink_push apW6 500 0 true 500
        (List.replicate 500 4)).ok = true ∧
    sc_audiobuf_can_read (sc_audio_player_frame_sink_push apW6 500 0 true 500
        (List.replicate 500 4)).ap.buf ≤ 1160 := by
  constructor
  · decide
  · have h := push_buffering_bound apW6 500 0 true 500
      (List.replicate 500 4) (by decide)
    have hb : (if apW6.played = true
        then apW6.target_buffering
          + 12 * SC_AUDIO_OUTPUT_BUFFER_MS * apW6.sample_rate / 1000
          + apW6.target_buffering / 10
        else apW6.target_buffering
          + 2 * SC_AUDIO_OUTPUT_BUFFER_MS * apW6.sample_rate / 1000)
        = 1160 := by
      norm_num [apW6, SC_AUDIO_OUTPUT_BUFFER_MS]
    rw [hb] at h
    exact h

end AudioPipeline
